import Mathlib

/-!
Shallow embedding of `master/buildbot/status/web/files/script/project/dataTables.js`,
the dashboard's initialization glue for the third-party DataTables widget.
A DOM table element is modelled by its CSS classes, the class lists of its
direct `thead th` header cells, and its row contents; the configuration
object built by `init` is modelled field by field.
-/

/-- A DOM element selected (or considered) by the script: its numeric identity,
CSS classes, the class lists of its direct `thead th` cells, and its rows. -/
structure Table where
  id : Nat
  classes : List String
  headerClasses : List (List String)
  rows : List (List String)
  deriving Repr, DecidableEq

/-- One entry of `aoColumns`: the object literal pushed for a non-sortable
column (`{'bSortable': false}` in the source). -/
structure ColOpt where
  bSortable : Bool
  deriving Repr, DecidableEq

/-- The `oLanguage` object: `sSearch` always present when set, `sLengthMenu`
only set by the `tools-js` branch. -/
structure OLanguage where
  sSearch : String
  sLengthMenu : Option String
  deriving Repr, DecidableEq

/-- The configuration object `optionTable` handed to the widget.  `oLanguage`
is `none` until a branch sets it; `aoColumns` holds `none` for a plain
(sortable) column and `some` for `{'bSortable': false}`. -/
structure OptionTable where
  bPaginate : Bool
  bLengthChange : Bool
  bFilter : Bool
  bSort : Bool
  bInfo : Bool
  bAutoWidth : Bool
  sDom : String
  bRetrieve : Bool
  asSorting : Bool
  bServerSide : Bool
  bSearchable : Bool
  aaSorting : List Nat
  iDisplayLength : Nat
  bStateSave : Bool
  oLanguage : Option OLanguage
  aoColumns : List (Option ColOpt)
  deriving Repr, DecidableEq

/-- `$(el).hasClass(c)` for the modelled element. -/
def hasClass (t : Table) (c : String) : Bool :=
  t.classes.contains c

/-- The `sLengthMenu` string literal built in the `tools-js` branch
(lines 51-57 of the source), as the JS `+`-concatenation writes it. -/
def sLengthMenuStr : String :=
  "Entries per page<select>" ++
    "<option value=\"10\">10</option>" ++
    "<option value=\"25\">25</option>" ++
    "<option value=\"50\">50</option>" ++
    "<option value=\"100\">100</option>" ++
    "<option value=\"-1\">All</option>" ++
    "</select>"

/-- The object literal assigned to `optionTable` (lines 16-41), before any
class-dependent branch runs. -/
def baseOptionTable : OptionTable where
  bPaginate := false
  bLengthChange := false
  bFilter := false
  bSort := true
  bInfo := false
  bAutoWidth := false
  sDom := "<\"table-wrapper\"t>"
  bRetrieve := true
  asSorting := true
  bServerSide := false
  bSearchable := true
  aaSorting := []
  iDisplayLength := 50
  bStateSave := true
  oLanguage := none
  aoColumns := []

/-- The `if ($(this).hasClass('tools-js'))` branch (lines 44-60). -/
def applyToolsJs (t : Table) (o : OptionTable) : OptionTable :=
  if hasClass t "tools-js" then
    { o with
      bPaginate := true
      bLengthChange := true
      bInfo := true
      bFilter := true
      oLanguage := some { sSearch := "", sLengthMenu := some sLengthMenuStr }
      sDom := "<\"top\"flip><\"table-wrapper\"t><\"bottom\"pi>" }
  else o

/-- The `if ($(this).hasClass('input-js'))` branch (lines 62-68); it runs
after the `tools-js` branch and reassigns `oLanguage` wholesale. -/
def applyInputJs (t : Table) (o : OptionTable) : OptionTable :=
  if hasClass t "input-js" then
    { o with
      bFilter := true
      oLanguage := some { sSearch := "", sLengthMenu := none }
      sDom := "<\"top\"flip><\"table-wrapper\"t><\"bottom\"pi>" }
  else o

/-- The `$('> thead th', this).each` loop (lines 71-77): one entry pushed per
header cell, `null` for a sortable column, `{'bSortable': false}` for a cell
with class `no-tablesorter-js`. -/
def colList (t : Table) : List (Option ColOpt) :=
  t.headerClasses.map fun h =>
    if h.contains "no-tablesorter-js" then some { bSortable := false } else none

/-- The complete configuration built for one selected table: base object,
then the `tools-js` branch, then the `input-js` branch, then
`optionTable.aoColumns = colList` (line 79). -/
def optionTable (t : Table) : OptionTable :=
  { applyInputJs t (applyToolsJs t baseOptionTable) with aoColumns := colList t }

/-- A `.dataTables_filter input` text field.  Modelled from the spec: the
external widget library ("Table widget" in the glossary) renders such a
filter input next to a table exactly when the configuration it received
enables filtering (`bFilter`); the library itself is not part of this
repository.  `createdFor` records the id of that table; `keydownHandlers`
records, in attachment order, the ids of the tables whose `fnFilter` the
bound keydown handlers call. -/
structure FilterInput where
  createdFor : Nat
  placeholder : Option String
  focused : Bool
  keydownHandlers : List Nat
  deriving Repr, DecidableEq

/-- The page as `init` sees it: the DOM elements, the number of elements
with id `builders_page` (`$('#builders_page').length`), and
`window.location.search`. -/
structure Document where
  tables : List Table
  buildersPageCount : Nat
  locationSearch : String
  deriving Repr, DecidableEq

/-- `$('.tablesorter-js')` (line 10): the elements carrying that class, in
document order. -/
def selectedTables (d : Document) : List Table :=
  d.tables.filter fun t => hasClass t "tablesorter-js"

/-- An external call issued by the script during `init`. -/
inductive ExtCall where
  | dataTableCall (tableId : Nat) (cfg : OptionTable)
  | helperCall
  | setPlaceholder (inputFor : Nat) (s : String)
  | focusInput (inputFor : Nat)
  | bindKeydown (inputFor : Nat) (tableId : Nat)
  deriving Repr, DecidableEq

/-- Which external calls can change table row contents: only the delegated
widget instantiation does during `init` (`helpers.codeBaseBranchOverview`
inserts codebase/branch info, and the remaining calls only touch the filter
input element). -/
def ExtCall.affectsTableRows : ExtCall → Bool
  | .dataTableCall _ _ => true
  | _ => false

/-- The jQuery chain of line 93 applied to one already-present filter input:
`attr('placeholder','Filter results').focus().keydown(...)`, the bound
handler calling the current table's `fnFilter`. -/
def wireInput (tid : Nat) (inp : FilterInput) : FilterInput :=
  { inp with
    placeholder := some "Filter results"
    focused := true
    keydownHandlers := inp.keydownHandlers ++ [tid] }

/-- The trace of line 93 for one filter input. -/
def wireCalls (tid : Nat) (inp : FilterInput) : List ExtCall :=
  [.setPlaceholder inp.createdFor "Filter results",
   .focusInput inp.createdFor,
   .bindKeydown inp.createdFor tid]

/-- Mutable state threaded through the `tablesorterEl.each` loop: the DOM
tables (the script never writes to them), the filter inputs present in the
document, the number of `helpers.codeBaseBranchOverview` calls so far, the
widget instantiations performed, and the external-call trace. -/
structure InitState where
  tables : List Table
  inputs : List FilterInput
  helperCalls : Nat
  widgets : List (Nat × OptionTable)
  trace : List ExtCall
  deriving Repr, DecidableEq

/-- The `#builders_page` guard of line 87:
`$('#builders_page').length && window.location.search != ''`. -/
def buildersCond (d : Document) : Bool :=
  d.buildersPageCount != 0 && d.locationSearch != ""

/-- One iteration of the `each` callback (lines 13-97) on table `t`:
build `optionTable t`, call `$(this).dataTable(optionTable)` (which makes
the widget render a filter input when `bFilter` is set), select every
`.dataTables_filter input` in the document, run the `builders_page` check,
and wire placeholder / focus / keydown onto each selected input. -/
def initStep (d : Document) (st : InitState) (t : Table) : InitState :=
  let cfg := optionTable t
  let inputs :=
    if cfg.bFilter then st.inputs ++ [⟨t.id, none, false, []⟩] else st.inputs
  let helperCalls :=
    if buildersCond d then st.helperCalls + 1 else st.helperCalls
  { tables := st.tables
    inputs := inputs.map (wireInput t.id)
    helperCalls := helperCalls
    widgets := st.widgets ++ [(t.id, cfg)]
    trace := st.trace ++
      [ExtCall.dataTableCall t.id cfg] ++
      (if buildersCond d then [ExtCall.helperCall] else []) ++
      inputs.flatMap (wireCalls t.id) }

/-- `dataTables.init`: iterate the `each` callback over the elements with
class `tablesorter-js`, starting from the untouched document. -/
def runInit (d : Document) : InitState :=
  (selectedTables d).foldl (initStep d) ⟨d.tables, [], 0, [], []⟩

/-- A delegated widget action triggered later by a DOM event. -/
inductive WidgetAction where
  | fnFilter (tableId : Nat) (value : String)
  deriving Repr, DecidableEq

/-- Firing a keydown event on a filter input whose field holds `value`:
each bound handler runs `oTable.fnFilter($(this).val())` for its table. -/
def keydown (inp : FilterInput) (value : String) : List WidgetAction :=
  inp.keydownHandlers.map fun tid => WidgetAction.fnFilter tid value

/-- One `<option value="v">label</option>` entry of a length menu. -/
def renderOption (value label : String) : String :=
  "<option value=\"" ++ value ++ "\">" ++ label ++ "</option>"

/-- Render a list of (value, label) menu options in order. -/
def renderOptions : List (String × String) → String
  | [] => ""
  | (v, l) :: rest => renderOption v l ++ renderOptions rest

/-- Modelled from the spec: in the widget's `sDom` layout string, characters
inside double-quoted segments are wrapper class names; the characters
outside the quotes are the feature placements (`l` length menu, `f` filter,
`t` table, `i` info, `p` pagination). -/
def sDomPlacementsAux : Bool → List Char → List Char
  | _, [] => []
  | inQuote, c :: cs =>
    if c = '"' then sDomPlacementsAux (!inQuote) cs
    else if inQuote then sDomPlacementsAux inQuote cs
    else c :: sDomPlacementsAux inQuote cs

/-- The placement characters of an `sDom` string (quoted class names
stripped). -/
def sDomPlacements (s : String) : List Char :=
  sDomPlacementsAux false s.data

/-- Cumulative effect on one already-present filter input of running the
line-93 wiring once per table in `ts` (in order): derived characterization
used to describe the loop's result. -/
def attachAll : List Table → FilterInput → FilterInput
  | [], inp => inp
  | t :: ts, inp =>
    { inp with
      placeholder := some "Filter results"
      focused := true
      keydownHandlers := inp.keydownHandlers ++ (t :: ts).map Table.id }

/-- The filter inputs present after `init` has processed the tables `ts`
starting from a document with no filter input: the table at position `j`
contributes an input exactly when its configuration enables filtering, and
that input's keydown handlers call `fnFilter` of every table from position
`j` onwards.  Derived characterization of the loop, proved equal to
`runInit` below. -/
def inputsSpec : List Table → List FilterInput
  | [] => []
  | t :: ts =>
    (if (optionTable t).bFilter then
      [⟨t.id, some "Filter results", true, t.id :: ts.map Table.id⟩]
    else []) ++ inputsSpec ts

/-- Example: a plain sortable table, first header cell opted out of
sorting. -/
def tPlain : Table :=
  ⟨0, ["tablesorter-js"], [["no-tablesorter-js"], ["date"]], [["r0c0", "r0c1"]]⟩

/-- Example: a table with the `tools-js` toolbar class. -/
def tTools : Table :=
  ⟨1, ["tablesorter-js", "tools-js"], [["name"]], [["a"], ["b"]]⟩

/-- Example: a table with the `input-js` filter-input class. -/
def tInput : Table :=
  ⟨2, ["tablesorter-js", "input-js"], [["name"]], [["c"]]⟩

/-- Example: a table carrying both `tools-js` and `input-js`. -/
def tBoth : Table :=
  ⟨3, ["tablesorter-js", "tools-js", "input-js"], [["name"]], [["d"]]⟩

/-- Example: an element without the `tablesorter-js` class. -/
def tOther : Table :=
  ⟨4, ["summary"], [["x"]], [["e"]]⟩

/-- Example document mixing all table kinds, with a `builders_page` element
and a non-empty query string. -/
def docEx : Document :=
  ⟨[tPlain, tTools, tInput, tBoth, tOther], 1, "?codebase=x"⟩

/-- Example document whose `builders_page` condition holds but which has no
`tablesorter-js` element. -/
def docNoTables : Document :=
  ⟨[tOther], 1, "?codebase=x"⟩

/-- Example document with a single plain table and no query string. -/
def docPlainOnly : Document :=
  ⟨[tPlain], 0, ""⟩

/-- Example document with a single filterable table. -/
def docInputOnly : Document :=
  ⟨[tInput], 0, ""⟩

/-- Example document with two filterable tables, to exercise the global
`$('.dataTables_filter input')` selection. -/
def docTwo : Document :=
  ⟨[tTools, tInput], 0, ""⟩

/-! ### Loop characterization lemmas -/

lemma foldl_tables_eq (d : Document) (ts : List Table) :
    ∀ st : InitState, (ts.foldl (initStep d) st).tables = st.tables := by
  induction ts with
  | nil => intro st; rfl
  | cons t ts ih => intro st; rw [List.foldl_cons, ih]; rfl

lemma foldl_widgets_eq (d : Document) (ts : List Table) :
    ∀ st : InitState,
      (ts.foldl (initStep d) st).widgets =
        st.widgets ++ ts.map fun t => (t.id, optionTable t) := by
  induction ts with
  | nil => intro st; simp
  | cons t ts ih =>
    intro st
    rw [List.foldl_cons, ih]
    simp [initStep]

lemma foldl_helperCalls_eq (d : Document) (ts : List Table) :
    ∀ st : InitState,
      (ts.foldl (initStep d) st).helperCalls =
        st.helperCalls + (if buildersCond d then ts.length else 0) := by
  induction ts with
  | nil => intro st; simp
  | cons t ts ih =>
    intro st
    rw [List.foldl_cons, ih]
    by_cases h : buildersCond d
    · simp [initStep, h]
      omega
    · simp [initStep, h]

lemma attachAll_wireInput (ts : List Table) (t : Table) (inp : FilterInput) :
    attachAll ts (wireInput t.id inp) = attachAll (t :: ts) inp := by
  cases ts <;> simp [attachAll, wireInput]

lemma map_attachAll_wire (ts : List Table) (t : Table) (l : List FilterInput) :
    (l.map (wireInput t.id)).map (attachAll ts) = l.map (attachAll (t :: ts)) := by
  induction l with
  | nil => rfl
  | cons x xs ih => simp [ih, attachAll_wireInput]

lemma attachAll_new (ts : List Table) (t : Table) :
    attachAll ts (wireInput t.id ⟨t.id, none, false, []⟩) =
      (⟨t.id, some "Filter results", true, t.id :: ts.map Table.id⟩ : FilterInput) := by
  rw [attachAll_wireInput]
  simp [attachAll]

lemma foldl_inputs_eq (d : Document) (ts : List Table) :
    ∀ st : InitState,
      (ts.foldl (initStep d) st).inputs =
        st.inputs.map (attachAll ts) ++ inputsSpec ts := by
  induction ts with
  | nil =>
    intro st
    have h : ∀ l : List FilterInput, l.map (attachAll []) = l := by
      intro l; induction l <;> simp_all [attachAll]
    simp [inputsSpec, h]
  | cons t ts ih =>
    intro st
    rw [List.foldl_cons, ih]
    by_cases hf : (optionTable t).bFilter
    · simp only [initStep, hf, if_true]
      rw [List.map_append, List.map_append, map_attachAll_wire]
      simp [inputsSpec, hf, attachAll_new]
    · simp only [initStep, hf, if_false]
      rw [map_attachAll_wire]
      simp [inputsSpec, hf]

lemma runInit_inputs (d : Document) :
    (runInit d).inputs = inputsSpec (selectedTables d) := by
  have h := foldl_inputs_eq d (selectedTables d) ⟨d.tables, [], 0, [], []⟩
  simpa [runInit] using h

lemma inputsSpec_mem_of_mem (ts : List Table) (t : Table)
    (ht : t ∈ ts) (hf : (optionTable t).bFilter = true) :
    ∃ inp ∈ inputsSpec ts, inp.createdFor = t.id ∧ t.id ∈ inp.keydownHandlers := by
  induction ts with
  | nil => cases ht
  | cons u us ih =>
    rcases List.mem_cons.mp ht with h | h
    · subst h
      refine ⟨⟨t.id, some "Filter results", true, t.id :: us.map Table.id⟩, ?_, rfl, ?_⟩
      · simp [inputsSpec, hf]
      · simp
    · obtain ⟨inp, hmem, hcf, hh⟩ := ih h
      exact ⟨inp, by simp [inputsSpec, hmem], hcf, hh⟩

lemma inputsSpec_get_mem (ts : List Table) :
    ∀ (j : Nat) (hj : j < ts.length),
      (optionTable (ts.get ⟨j, hj⟩)).bFilter = true →
      (⟨(ts.get ⟨j, hj⟩).id, some "Filter results", true,
        (ts.drop j).map Table.id⟩ : FilterInput) ∈ inputsSpec ts := by
  induction ts with
  | nil => intro j hj; cases hj
  | cons u us ih =>
    intro j hj hf
    cases j with
    | zero => simp_all [inputsSpec]
    | succ j =>
      have := ih j (by simpa using hj) (by simpa using hf)
      simpa [inputsSpec] using Or.inr this

lemma foldl_trace_pred (d : Document) (ts : List Table) :
    ∀ st : InitState,
      (∀ c ∈ st.trace, c.affectsTableRows = true →
        ∃ t ∈ selectedTables d, c = ExtCall.dataTableCall t.id (optionTable t)) →
      (∀ t ∈ ts, t ∈ selectedTables d) →
      ∀ c ∈ (ts.foldl (initStep d) st).trace, c.affectsTableRows = true →
        ∃ t ∈ selectedTables d, c = ExtCall.dataTableCall t.id (optionTable t) := by
  induction ts with
  | nil => intro st hst _; exact hst
  | cons t ts ih =>
    intro st hst hts
    rw [List.foldl_cons]
    refine ih _ ?_ fun u hu => hts u (List.mem_cons_of_mem _ hu)
    intro c hc haff
    simp only [initStep, List.mem_append] at hc
    rcases hc with ((hc | hc) | hc) | hc
    · exact hst c hc haff
    · rcases List.mem_singleton.mp hc with rfl
      exact ⟨t, hts t (List.mem_cons_self _ _), rfl⟩
    · rcases Bool.eq_false_or_eq_true (buildersCond d) with hb | hb <;>
        simp [hb] at hc
      subst hc
      simp [ExtCall.affectsTableRows] at haff
    · obtain ⟨inp, _, hcw⟩ := List.mem_flatMap.mp hc
      simp [wireCalls] at hcw
      rcases hcw with rfl | rfl | rfl <;>
        simp [ExtCall.affectsTableRows] at haff

/-! ### Claim theorems -/

/-- C2: for every selected table, `aoColumns` has exactly one entry per
direct `thead th` header cell, in document order, and entry `i` is
`{bSortable: false}` exactly when the `i`-th header cell has class
`no-tablesorter-js`, and `null` (sortable) otherwise. -/
theorem C2_aoColumns_per_header (t : Table) :
    (optionTable t).aoColumns.length = t.headerClasses.length ∧
    ∀ i : Nat, ∀ h1 : i < (optionTable t).aoColumns.length,
      ∀ h2 : i < t.headerClasses.length,
        (optionTable t).aoColumns.get ⟨i, h1⟩ =
          if (t.headerClasses.get ⟨i, h2⟩).contains "no-tablesorter-js"
          then some { bSortable := false } else none := by
  have hcol : (optionTable t).aoColumns = colList t := rfl
  constructor
  · rw [hcol]; simp [colList]
  · intro i h1 h2
    simp [hcol, colList]

/-- Witness for C2 at the concrete table `tPlain` and column 0. -/
theorem C2_aoColumns_per_header_witness :
    0 < (optionTable tPlain).aoColumns.length ∧
    0 < tPlain.headerClasses.length ∧
    (optionTable tPlain).aoColumns.get ⟨0, by decide⟩ =
      some { bSortable := false } := by
  refine ⟨by decide, by decide, ?_⟩
  have h := (C2_aoColumns_per_header tPlain).2 0 (by decide) (by decide)
  simpa using h

/-- C4: a selected table with neither `tools-js` nor `input-js` gets the
base configuration: pagination, length change, filtering and info disabled,
sorting enabled with empty initial order, display length 50, state saving
on. -/
theorem C4_plain_table_config (t : Table)
    (h1 : hasClass t "tools-js" = false) (h2 : hasClass t "input-js" = false) :
    (optionTable t).bPaginate = false ∧
    (optionTable t).bLengthChange = false ∧
    (optionTable t).bFilter = false ∧
    (optionTable t).bInfo = false ∧
    (optionTable t).bSort = true ∧
    (optionTable t).aaSorting = [] ∧
    (optionTable t).iDisplayLength = 50 ∧
    (optionTable t).bStateSave = true := by
  simp [optionTable, applyToolsJs, applyInputJs, h1, h2, baseOptionTable]

/-- Witness for C4 at the concrete table `tPlain`. -/
theorem C4_plain_table_config_witness :
    (hasClass tPlain "tools-js" = false ∧ hasClass tPlain "input-js" = false) ∧
    ((optionTable tPlain).bPaginate = false ∧
     (optionTable tPlain).bLengthChange = false ∧
     (optionTable tPlain).bFilter = false ∧
     (optionTable tPlain).bInfo = false ∧
     (optionTable tPlain).bSort = true ∧
     (optionTable tPlain).aaSorting = [] ∧
     (optionTable tPlain).iDisplayLength = 50 ∧
     (optionTable tPlain).bStateSave = true) :=
  ⟨⟨by decide, by decide⟩, C4_plain_table_config tPlain (by decide) (by decide)⟩

/-- Counterexample to C5 as stated: `tBoth` carries class `tools-js`, yet
its final configuration's `oLanguage` has no `sLengthMenu` at all (the
`input-js` branch reassigned `oLanguage`), so no length menu with options
10/25/50/100/All is set for it. -/
theorem C5_counterexample :
    hasClass tBoth "tools-js" = true ∧
    (optionTable tBoth).oLanguage = some { sSearch := "", sLengthMenu := none } := by
  constructor
  · decide
  · rfl

/-- C5 (amended): for every selected table with class `tools-js` and
without class `input-js`, the configuration enables pagination, length
change, info and filtering, and its language strings carry a length menu
offering exactly the options 10, 25, 50, 100 and All (-1). -/
theorem C5_tools_table_config (t : Table)
    (h1 : hasClass t "tools-js" = true) (h2 : hasClass t "input-js" = false) :
    (optionTable t).bPaginate = true ∧
    (optionTable t).bLengthChange = true ∧
    (optionTable t).bInfo = true ∧
    (optionTable t).bFilter = true ∧
    (optionTable t).oLanguage =
      some { sSearch := "", sLengthMenu := some sLengthMenuStr } ∧
    sLengthMenuStr =
      "Entries per page<select>" ++
        renderOptions
          [("10", "10"), ("25", "25"), ("50", "50"), ("100", "100"), ("-1", "All")] ++
        "</select>" := by
  refine ⟨?_, ?_, ?_, ?_, ?_, ?_⟩ <;>
    simp [optionTable, applyToolsJs, applyInputJs, h1, h2, sLengthMenuStr,
      renderOptions, renderOption]

/-- Witness for the amended C5 at the concrete table `tTools`. -/
theorem C5_tools_table_config_witness :
    (hasClass tTools "tools-js" = true ∧ hasClass tTools "input-js" = false) ∧
    ((optionTable tTools).bPaginate = true ∧
     (optionTable tTools).bLengthChange = true ∧
     (optionTable tTools).bInfo = true ∧
     (optionTable tTools).bFilter = true ∧
     (optionTable tTools).oLanguage =
       some { sSearch := "", sLengthMenu := some sLengthMenuStr } ∧
     sLengthMenuStr =
       "Entries per page<select>" ++
         renderOptions
           [("10", "10"), ("25", "25"), ("50", "50"), ("100", "100"), ("-1", "All")] ++
         "</select>") :=
  ⟨⟨by decide, by decide⟩, C5_tools_table_config tTools (by decide) (by decide)⟩

/-- C8: when a selected table carries both `tools-js` and `input-js`, the
`input-js` branch overwrites `oLanguage`, leaving only `sSearch = ""` (no
length-menu string), while `bLengthChange` keeps the value `true` set by
the `tools-js` branch. -/
theorem C8_both_classes_config (t : Table)
    (h1 : hasClass t "tools-js" = true) (h2 : hasClass t "input-js" = true) :
    (optionTable t).oLanguage = some { sSearch := "", sLengthMenu := none } ∧
    (optionTable t).bLengthChange = true := by
  simp [optionTable, applyToolsJs, applyInputJs, h1, h2]

/-- Witness for C8 at the concrete table `tBoth`. -/
theorem C8_both_classes_config_witness :
    (hasClass tBoth "tools-js" = true ∧ hasClass tBoth "input-js" = true) ∧
    ((optionTable tBoth).oLanguage = some { sSearch := "", sLengthMenu := none } ∧
     (optionTable tBoth).bLengthChange = true) :=
  ⟨⟨by decide, by decide⟩, C8_both_classes_config tBoth (by decide) (by decide)⟩

/-- C9: a selected table with `input-js` but not `tools-js` gets filtering
enabled while pagination, length change and info stay disabled, even though
its `sDom` layout string contains the length (`l`), info (`i`) and
pagination (`p`) placements. -/
theorem C9_input_table_config (t : Table)
    (h1 : hasClass t "input-js" = true) (h2 : hasClass t "tools-js" = false) :
    (optionTable t).bFilter = true ∧
    (optionTable t).bPaginate = false ∧
    (optionTable t).bLengthChange = false ∧
    (optionTable t).bInfo = false ∧
    (optionTable t).sDom = "<\"top\"flip><\"table-wrapper\"t><\"bottom\"pi>" ∧
    'l' ∈ sDomPlacements (optionTable t).sDom ∧
    'i' ∈ sDomPlacements (optionTable t).sDom ∧
    'p' ∈ sDomPlacements (optionTable t).sDom := by
  have hdom : (optionTable t).sDom = "<\"top\"flip><\"table-wrapper\"t><\"bottom\"pi>" := by
    simp [optionTable, applyToolsJs, applyInputJs, h1, h2]
  refine ⟨?_, ?_, ?_, ?_, hdom, ?_, ?_, ?_⟩ <;>
    simp [optionTable, applyToolsJs, applyInputJs, h1, h2, hdom] <;>
    decide

/-- Witness for C9 at the concrete table `tInput`. -/
theorem C9_input_table_config_witness :
    (hasClass tInput "input-js" = true ∧ hasClass tInput "tools-js" = false) ∧
    ((optionTable tInput).bFilter = true ∧
     (optionTable tInput).bPaginate = false ∧
     (optionTable tInput).bLengthChange = false ∧
     (optionTable tInput).bInfo = false ∧
     (optionTable tInput).sDom = "<\"top\"flip><\"table-wrapper\"t><\"bottom\"pi>" ∧
     'l' ∈ sDomPlacements (optionTable tInput).sDom ∧
     'i' ∈ sDomPlacements (optionTable tInput).sDom ∧
     'p' ∈ sDomPlacements (optionTable tInput).sDom) :=
  ⟨⟨by decide, by decide⟩, C9_input_table_config tInput (by decide) (by decide)⟩

/-- C1: `init` instantiates the widget exactly on the elements with class
`tablesorter-js` — each such element gets a widget configured by
`optionTable`, no widget is created for any other element, and the DOM
elements themselves are left untouched. -/
theorem C1_instantiates_iff_class (d : Document)
    (hnodup : (d.tables.map Table.id).Nodup) (t : Table) (ht : t ∈ d.tables) :
    (hasClass t "tablesorter-js" = true →
      (t.id, optionTable t) ∈ (runInit d).widgets) ∧
    (hasClass t "tablesorter-js" = false →
      ∀ cfg, (t.id, cfg) ∉ (runInit d).widgets) ∧
    (runInit d).tables = d.tables := by
  have hw : (runInit d).widgets =
      (selectedTables d).map fun s => (s.id, optionTable s) := by
    have h := foldl_widgets_eq d (selectedTables d) ⟨d.tables, [], 0, [], []⟩
    simpa [runInit] using h
  refine ⟨?_, ?_, ?_⟩
  · intro hc
    rw [hw]
    exact List.mem_map_of_mem _ (List.mem_filter.mpr ⟨ht, hc⟩)
  · intro hc cfg hmem
    rw [hw] at hmem
    obtain ⟨s, hs, heq⟩ := List.mem_map.mp hmem
    have hsmem := List.mem_filter.mp hs
    have hid : s.id = t.id := congrArg Prod.fst heq
    have hst : s = t :=
      List.inj_on_of_nodup_map hnodup hsmem.1 ht hid
    rw [hst] at hsmem
    rw [hsmem.2] at hc
    cases hc
  · exact foldl_tables_eq d (selectedTables d) ⟨d.tables, [], 0, [], []⟩

/-- Witness for C1 at the concrete document `docEx` and table `tPlain`. -/
theorem C1_instantiates_iff_class_witness :
    ((docEx.tables.map Table.id).Nodup ∧ tPlain ∈ docEx.tables) ∧
    ((hasClass tPlain "tablesorter-js" = true →
       (tPlain.id, optionTable tPlain) ∈ (runInit docEx).widgets) ∧
     (hasClass tPlain "tablesorter-js" = false →
       ∀ cfg, (tPlain.id, cfg) ∉ (runInit docEx).widgets) ∧
     (runInit docEx).tables = docEx.tables) :=
  ⟨⟨by decide, by decide⟩,
    C1_instantiates_iff_class docEx (by decide) tPlain (by decide)⟩

/-- C3: for every table `init` processes whose configuration enables
filtering (so the widget renders a filter input for it), a keydown on that
filter input invokes the widget's `fnFilter` with the input field's current
value. -/
theorem C3_keydown_invokes_fnFilter (d : Document) (t : Table)
    (ht : t ∈ selectedTables d) (hf : (optionTable t).bFilter = true) (v : String) :
    ∃ inp ∈ (runInit d).inputs,
      inp.createdFor = t.id ∧ WidgetAction.fnFilter t.id v ∈ keydown inp v := by
  obtain ⟨inp, hmem, hcf, hh⟩ :=
    inputsSpec_mem_of_mem (selectedTables d) t ht hf
  refine ⟨inp, ?_, hcf, ?_⟩
  · rw [runInit_inputs]; exact hmem
  · exact List.mem_map_of_mem _ hh

/-- Witness for C3 at the concrete document `docInputOnly`, table `tInput`
and value "abc". -/
theorem C3_keydown_invokes_fnFilter_witness :
    (tInput ∈ selectedTables docInputOnly ∧ (optionTable tInput).bFilter = true) ∧
    ∃ inp ∈ (runInit docInputOnly).inputs,
      inp.createdFor = tInput.id ∧
      WidgetAction.fnFilter tInput.id "abc" ∈ keydown inp "abc" :=
  ⟨⟨by decide, by decide⟩,
    C3_keydown_invokes_fnFilter docInputOnly tInput (by decide) (by decide) "abc"⟩

/-- Counterexample to C6 as stated: in `docNoTables` the `builders_page`
element exists and the query string is non-empty, yet
`helpers.codeBaseBranchOverview` is never invoked, because the check sits
inside the per-table loop and no element has class `tablesorter-js`. -/
theorem C6_counterexample :
    buildersCond docNoTables = true ∧
    (runInit docNoTables).helperCalls = 0 := by
  constructor
  · decide
  · rfl

/-- C6 (amended): `helpers.codeBaseBranchOverview` is invoked once per
`tablesorter-js` element exactly when the document contains a
`builders_page` element and the query string is non-empty — hence it is
invoked at all if and only if that condition holds and at least one
`tablesorter-js` element exists; the `builders_page` element only serves as
a presence hook: any two non-zero element counts give the same result. -/
theorem C6_helper_invocation (d : Document) :
    ((runInit d).helperCalls =
      if buildersCond d then (selectedTables d).length else 0) ∧
    ((runInit d).helperCalls ≠ 0 ↔
      (buildersCond d = true ∧ selectedTables d ≠ [])) ∧
    (∀ ts : List Table, ∀ n : Nat, ∀ s : String,
      runInit ⟨ts, n, s⟩ = runInit ⟨ts, if n = 0 then 0 else 1, s⟩) := by
  have hcount : ∀ d' : Document,
      (runInit d').helperCalls =
        if buildersCond d' then (selectedTables d').length else 0 := by
    intro d'
    have h := foldl_helperCalls_eq d' (selectedTables d') ⟨d'.tables, [], 0, [], []⟩
    simpa [runInit] using h
  refine ⟨hcount d, ?_, ?_⟩
  · rw [hcount d]
    by_cases hb : buildersCond d <;>
      simp [hb, List.length_eq_zero]
  · intro ts n s
    have hcond : buildersCond ⟨ts, n, s⟩ = buildersCond ⟨ts, if n = 0 then 0 else 1, s⟩ := by
      by_cases hn : n = 0 <;> simp [buildersCond, hn]
    have hstep : initStep ⟨ts, n, s⟩ = initStep ⟨ts, if n = 0 then 0 else 1, s⟩ := by
      funext st t
      simp [initStep, hcond]
    simp [runInit, selectedTables, hstep]

/-- C7: the script itself never changes the tables' row contents — `init`
returns every DOM table unchanged, the only row-affecting external call in
its trace is the delegated `dataTable(optionTable)` instantiation, and the
only action a keydown handler ever triggers is the delegated `fnFilter`
with the field's value. -/
theorem C7_no_own_row_logic (d : Document) :
    (runInit d).tables = d.tables ∧
    (∀ c ∈ (runInit d).trace, c.affectsTableRows = true →
      ∃ t ∈ selectedTables d, c = ExtCall.dataTableCall t.id (optionTable t)) ∧
    (∀ inp : FilterInput, ∀ v : String, ∀ a ∈ keydown inp v,
      ∃ tid ∈ inp.keydownHandlers, a = WidgetAction.fnFilter tid v) := by
  refine ⟨foldl_tables_eq d (selectedTables d) ⟨d.tables, [], 0, [], []⟩, ?_, ?_⟩
  · exact foldl_trace_pred d (selectedTables d) ⟨d.tables, [], 0, [], []⟩
      (by intro c hc; cases hc) (fun t ht => ht)
  · intro inp v a ha
    obtain ⟨tid, htid, rfl⟩ := List.mem_map.mp ha
    exact ⟨tid, htid, rfl⟩

/-- Witness for C7 at the concrete document `docPlainOnly` and the one
widget-instantiation call in its trace. -/
theorem C7_no_own_row_logic_witness :
    (runInit docPlainOnly).tables = docPlainOnly.tables ∧
    (ExtCall.dataTableCall tPlain.id (optionTable tPlain) ∈ (runInit docPlainOnly).trace ∧
     (ExtCall.dataTableCall tPlain.id (optionTable tPlain)).affectsTableRows = true) ∧
    ∃ t ∈ selectedTables docPlainOnly,
      ExtCall.dataTableCall tPlain.id (optionTable tPlain) =
        ExtCall.dataTableCall t.id (optionTable t) :=
  ⟨(C7_no_own_row_logic docPlainOnly).1,
    ⟨by decide, by decide⟩,
    (C7_no_own_row_logic docPlainOnly).2.1 _ (by decide) (by decide)⟩

/-- C10: each iteration wires the current table's `fnFilter` onto every
`.dataTables_filter input` in the whole document, so the input created for
the `j`-th selected table ends up with one keydown handler per table
initialized from position `j` onwards, and a keydown with value `v` on it
triggers `fnFilter` with `v` on all of those tables. -/
theorem C10_keydown_fans_out (d : Document) (v : String)
    (j : Nat) (hj : j < (selectedTables d).length)
    (hf : (optionTable ((selectedTables d).get ⟨j, hj⟩)).bFilter = true) :
    ∃ inp ∈ (runInit d).inputs,
      inp.createdFor = ((selectedTables d).get ⟨j, hj⟩).id ∧
      inp.keydownHandlers = ((selectedTables d).drop j).map Table.id ∧
      keydown inp v =
        ((selectedTables d).drop j).map fun t => WidgetAction.fnFilter t.id v := by
  refine ⟨⟨((selectedTables d).get ⟨j, hj⟩).id, some "Filter results", true,
    ((selectedTables d).drop j).map Table.id⟩, ?_, rfl, rfl, ?_⟩
  · rw [runInit_inputs]
    exact inputsSpec_get_mem (selectedTables d) j hj hf
  · simp only [keydown, List.map_map]
    rfl

/-- Witness for C10 at the concrete document `docTwo`: the filter input
created for the first selected table (`tTools`) also triggers `fnFilter`
on the table initialized after it (`tInput`). -/
theorem C10_keydown_fans_out_witness :
    (0 < (selectedTables docTwo).length ∧
     (optionTable ((selectedTables docTwo).get ⟨0, by decide⟩)).bFilter = true) ∧
    ∃ inp ∈ (runInit docTwo).inputs,
      inp.createdFor = ((selectedTables docTwo).get ⟨0, by decide⟩).id ∧
      inp.keydownHandlers = ((selectedTables docTwo).drop 0).map Table.id ∧
      keydown inp "x" =
        ((selectedTables docTwo).drop 0).map fun t => WidgetAction.fnFilter t.id "x" :=
  ⟨⟨by decide, by decide⟩,
    C10_keydown_fans_out docTwo "x" 0 (by decide) (by decide)⟩
